import Mathlib

/-!
# Verification of the topsha agent runtime core

Shallow embedding of the permission engine (`core/tools/permissions.py`),
the tool dispatcher (`core/tools/__init__.py`), the agent loop
(`core/agent.py`) and the scheduler (`scheduler/main.py`), together with
proofs about the claims of the specification.

Strings are manipulated through their underlying character lists so that
all definitions reduce in the kernel.
-/

namespace Topsha

/-! ## String helpers (kernel-reducible models of the Python string operations) -/

/-- `pre` is a prefix of `s` (models Python `str.startswith`). -/
def strStarts (s pre : String) : Bool :=
  pre.data.isPrefixOf s.data

/-- Substring test on character lists: some suffix of `hay` starts with `needle`. -/
def subOf (needle : List Char) : List Char → Bool
  | [] => needle.isEmpty
  | c :: t => needle.isPrefixOf (c :: t) || subOf needle t

/-- `needle` occurs as a contiguous substring of `hay`
(models the Python `needle in hay` test on strings). -/
def strContains (hay needle : String) : Bool :=
  subOf needle.data hay.data

/-- Lower-casing of a string, character by character
(models Python `str.lower` on the ASCII range). -/
def lowerStr (s : String) : String :=
  String.mk (s.data.map Char.toLower)

/-- Drop the first `n` characters (models Python slicing `s[n:]`). -/
def strDrop (s : String) (n : Nat) : String :=
  String.mk (s.data.drop n)

/-! ## Permission engine — `core/tools/permissions.py` -/

/-- The `tools` field of a permission config: either the string `"*"` or an
explicit list of tool names. -/
inductive ToolsSpec where
  | star : ToolsSpec
  | names : List String → ToolsSpec
deriving DecidableEq, Repr

/-- One entry of the permissions map: `{mode, tools}`
(the `description` field is never consulted by the algorithm). -/
structure PermConfig where
  mode : String
  tools : ToolsSpec
deriving DecidableEq, Repr

/-- The permissions map.  `_get_effective_type` only ever produces the four
keys `main`, `group`, `sandbox`, `userbot`, and all four are present in
`DEFAULT_PERMISSIONS`, so the map is modelled as a total four-field record. -/
structure Perms where
  main : PermConfig
  group : PermConfig
  sandbox : PermConfig
  userbot : PermConfig
deriving DecidableEq, Repr

/-- `self.permissions.get(effective_type, self.permissions["main"])`. -/
def Perms.get (p : Perms) (key : String) : PermConfig :=
  if key = "main" then p.main
  else if key = "group" then p.group
  else if key = "sandbox" then p.sandbox
  else if key = "userbot" then p.userbot
  else p.main

/-- `DEFAULT_PERMISSIONS` from `permissions.py`. -/
def DEFAULT_PERMISSIONS : Perms :=
  { main := ⟨"allowlist", .star⟩
    group := ⟨"denylist", .names ["send_dm", "manage_message", "schedule_task"]⟩
    sandbox := ⟨"allowlist",
      .names ["run_command", "read_file", "write_file", "edit_file", "delete_file",
              "search_files", "search_text", "list_directory", "memory", "manage_tasks"]⟩
    userbot := ⟨"denylist", .names ["send_file", "send_dm", "manage_message", "ask_user"]⟩ }

/-- `SANDBOX_DENIED` from `permissions.py` (a Python set, modelled as a list). -/
def SANDBOX_DENIED : List String :=
  ["send_dm", "manage_message", "schedule_task", "ask_user"]

/-- `ToolPermissions._get_effective_type`. -/
def get_effective_type (session_type source : String) : String :=
  if source = "userbot" then "userbot"
  else if session_type = "private" ∨ session_type = "main" then "main"
  else if session_type = "group" ∨ session_type = "supergroup" then "group"
  else if session_type = "sandbox" then "sandbox"
  else "main"

/-- Result of a permission check (`PermissionResult`). -/
structure PermissionResult where
  allowed : Bool
  reason : String
  tool : String
  session_type : String
deriving DecidableEq, Repr

/-- `ToolPermissions.check_permission`. -/
def check_permission (p : Perms) (tool_name session_type source : String) :
    PermissionResult :=
  let effective_type := get_effective_type session_type source
  let config := p.get effective_type
  let base : Bool × String :=
    if config.mode = "allowlist" then
      match config.tools with
      | .star => (true, "All tools allowed")
      | .names ts =>
        if ts.contains tool_name then (true, "Tool in allowlist")
        else (false, "Tool not in allowlist")
    else if config.mode = "denylist" then
      match config.tools with
      | .star => (false, "All tools denied")
      | .names ts =>
        if ts.contains tool_name then (false, "Tool in denylist")
        else (true, "Tool not in denylist")
    else (true, "Unknown mode, defaulting to allow")
  let withSandbox : Bool × String :=
    if effective_type = "sandbox" ∧ SANDBOX_DENIED.contains tool_name then
      (false, "Tool '" ++ tool_name ++ "' never allowed in sandbox")
    else base
  { allowed := withSandbox.1
    reason := withSandbox.2
    tool := tool_name
    session_type := effective_type }

/-- `TOOL_EXECUTORS.keys()` — the registry of built-in executors, in source order. -/
def TOOL_EXECUTOR_NAMES : List String :=
  ["run_command", "read_file", "write_file", "edit_file", "delete_file",
   "search_files", "search_text", "list_directory", "search_web", "fetch_page",
   "memory", "schedule_task", "manage_tasks", "send_file", "send_dm",
   "manage_message", "ask_user", "search_tools", "load_tools",
   "install_skill", "list_skills",
   "telegram_channel", "telegram_join", "telegram_send", "telegram_history",
   "telegram_dialogs", "telegram_delete", "telegram_edit", "telegram_resolve"]

/-- `ToolPermissions.get_allowed_tools`. -/
def get_allowed_tools (p : Perms) (session_type source : String) : List String :=
  let effective_type := get_effective_type session_type source
  let config := p.get effective_type
  let all_tools := TOOL_EXECUTOR_NAMES
  let allowed :=
    if config.mode = "allowlist" then
      match config.tools with
      | .star => all_tools
      | .names ts => all_tools.filter (fun t => ts.contains t)
    else if config.mode = "denylist" then
      match config.tools with
      | .star => ([] : List String)
      | .names ts => all_tools.filter (fun t => !ts.contains t)
    else all_tools
  if effective_type = "sandbox" then
    allowed.filter (fun t => !SANDBOX_DENIED.contains t)
  else allowed

/-- A tool definition's `function` object (only the fields the core reads). -/
structure ToolFn where
  name : String
  description : String
deriving DecidableEq, Repr

/-- An OpenAI-style tool definition `{type, function}`. -/
structure ToolDef where
  «type» : String
  function : ToolFn
deriving DecidableEq, Repr

/-- `ToolPermissions.filter_tool_definitions`. -/
def filter_tool_definitions (p : Perms) (definitions : List ToolDef)
    (session_type source : String) : List ToolDef :=
  let allowed := get_allowed_tools p session_type source
  definitions.filter (fun d => allowed.contains d.function.name)

/-! ## Tool dispatcher — `core/tools/__init__.py` -/

/-- JSON argument objects, modelled as key/value pairs (the dispatcher only
passes them through). -/
def Args := List (String × String)
deriving DecidableEq, Repr

/-- `ToolResult` from `core/models.py`.  `metadata` carries the value of the
`loaded_tools` key when present (the only metadata key the system produces). -/
structure ToolResult where
  success : Bool
  output : String := ""
  error : String := ""
  metadata : Option (List ToolDef) := none
deriving DecidableEq, Repr

/-- `ToolContext` from `core/models.py`. -/
structure ToolContext where
  cwd : String
  session_id : String := ""
  user_id : Int := 0
  chat_id : Int := 0
  chat_type : String := "private"
  source : String := "bot"
  is_admin : Bool := false
deriving DecidableEq, Repr

/-- Outcome of awaiting one external executor or MCP call under
`asyncio.wait_for`: a returned `ToolResult`, a `TimeoutError`, or another
raised exception (with its string form). -/
inductive ExecOutcome where
  | ok : ToolResult → ExecOutcome
  | timedOut : ExecOutcome
  | raised : String → ExecOutcome
deriving DecidableEq, Repr

/-- Behaviour of the external world during one dispatch: what the MCP bridge
(`call_mcp_tool`) and each built-in executor coroutine would produce. -/
structure DispatchEnv where
  mcp : String → String → Args → ExecOutcome
  exec : String → Args → ToolContext → ExecOutcome

/-- The configuration fields of `config.CONFIG` read by the embedded code. -/
structure Config where
  max_iterations : Nat
  max_blocked_commands : Nat
  tool_timeout : Nat
  max_history : Nat
  max_tool_output : Nat
  max_context_messages : Nat
deriving DecidableEq, Repr

/-- External calls performed by one dispatch, with the hard deadline (in
seconds) passed to `asyncio.wait_for`. -/
inductive Effect where
  | builtinCall : String → Nat → Effect
  | mcpCall : String → String → Nat → Effect
deriving DecidableEq, Repr

/-- The hardcoded candidate server list the dispatcher tries when parsing an
`mcp_`-prefixed name (`for possible_server in ["google_workspace", "docker", "test"]`). -/
def MCP_SERVER_CANDIDATES : List String := ["google_workspace", "docker", "test"]

/-- `name_without_prefix.split("_", 1)` — split at the first underscore. -/
def splitFirstUnderscore (s : String) : Option (String × String) :=
  go s.data []
where
  go : List Char → List Char → Option (String × String)
    | [], _ => none
    | c :: rest, acc =>
      if c = '_' then some (String.mk acc.reverse, String.mk rest)
      else go rest (c :: acc)

/-- The dispatcher's resolution of `mcp_<server>_<tool>` (the body of
`execute_tool` after stripping the `mcp_` prefix): first try the hardcoded
candidate servers as `<server>_` prefixes, then fall back to splitting at the
first underscore; the call proceeds only when both parts are non-empty
(`if server_name and tool_name`). -/
def resolve_mcp (rest : String) : Option (String × String) :=
  let viaCandidates : Option (String × String) :=
    match MCP_SERVER_CANDIDATES.find? (fun s => strStarts rest (s ++ "_")) with
    | some s => some (s, strDrop rest (s.data.length + 1))
    | none => none
  let pair :=
    match viaCandidates with
    | some p => some p
    | none => splitFirstUnderscore rest
  match pair with
  | some (server, tool) =>
    if server ≠ "" ∧ tool ≠ "" then some (server, tool) else none
  | none => none

/-- The non-MCP tail of `execute_tool`: look up a built-in executor and run it
under the configured deadline. -/
def run_builtin (cfg : Config) (env : DispatchEnv) (name : String) (args : Args)
    (ctx : ToolContext) : ToolResult × List Effect :=
  if TOOL_EXECUTOR_NAMES.contains name then
    let eff := [Effect.builtinCall name cfg.tool_timeout]
    match env.exec name args ctx with
    | .ok r => (r, eff)
    | .timedOut => ({ success := false, error := "Tool " ++ name ++ " timed out" }, eff)
    | .raised e => ({ success := false, error := e }, eff)
  else
    ({ success := false, error := "Unknown tool: " ++ name }, [])

/-- `execute_tool` from `core/tools/__init__.py`, returning the `ToolResult`
together with the external calls it performed. -/
def execute_tool (cfg : Config) (p : Perms) (env : DispatchEnv) (name : String)
    (args : Args) (ctx : ToolContext) : ToolResult × List Effect :=
  let perm := check_permission p name ctx.chat_type ctx.source
  if perm.allowed = false then
    ({ success := false
       error := "🔒 Tool '" ++ name ++ "' not available in " ++ perm.session_type
                ++ " sessions. " ++ perm.reason }, [])
  else if strStarts name "mcp_" then
    match resolve_mcp (strDrop name 4) with
    | some (server, tool) =>
      let eff := [Effect.mcpCall server tool cfg.tool_timeout]
      match env.mcp server tool args with
      | .ok r => (r, eff)
      | .timedOut => ({ success := false, error := "MCP tool " ++ name ++ " timed out" }, eff)
      | .raised e => ({ success := false, error := "MCP tool error: " ++ e }, eff)
    | none => run_builtin cfg env name args ctx
  else
    run_builtin cfg env name args ctx

/-! ## Security-violation classifier — `core/agent.py`, `run_agent` -/

/-- The sensitive-token list from `run_agent`. -/
def SECURITY_TOKENS : List String :=
  ["secret", "env", "token", "key", "password", "credential",
   "injection", "/etc/passwd", "/etc/shadow", "proc/self",
   "base64", "exfiltration", "fork bomb", "rm -rf"]

/-- `is_security_violation`: the error contains `"BLOCKED"` and its
lower-cased form contains one of the sensitive tokens. -/
def is_security_violation (error_msg : String) : Bool :=
  strContains error_msg "BLOCKED" &&
    SECURITY_TOKENS.any (fun threat => strContains (lowerStr error_msg) threat)

/-- The counter update performed per dispatched tool call
(`if is_security_violation: session.blocked_count += 1`). -/
def securityUpdate (blocked_count : Nat) (error_msg : String) : Nat :=
  if is_security_violation error_msg then blocked_count + 1 else blocked_count

/-- The terminal lock message returned when the violation cap is reached. -/
def lockMessage : String :=
  "🚫 Session locked due to repeated security violations. /clear to reset."

/-! ## Session manager — `core/agent.py` -/

/-- A `{role, content}` entry of `session.history` (the epilogue of
`run_agent` appends exactly this shape). -/
structure HistMsg where
  role : String
  content : String
deriving DecidableEq, Repr

/-- `Session` from `core/agent.py`. -/
structure AgentSession where
  user_id : Int
  chat_id : Int
  cwd : String
  history : List HistMsg
  blocked_count : Nat := 0
  source : String := "bot"
deriving DecidableEq, Repr

/-- `SessionManager.clear`: empty the transcript and reset the counter. -/
def clear_session (s : AgentSession) : AgentSession :=
  { s with history := [], blocked_count := 0 }

/-! ## Agent loop — `core/agent.py`, `run_agent` -/

/-- One entry of a `tool_calls` array, with the arguments already parsed
(`json.loads` plus `try_fix_json_args` on the raw string). -/
structure FnCall where
  id : String
  name : String
  args : Args
deriving DecidableEq, Repr

/-- What one `call_llm` invocation yields: a transport/HTTP error
(`{"error": ...}`), an empty `choices` array, or the first choice's message.
`content` and `reasoning` are the empty string when the field is null or
absent (`msg.get("content", "") or ""`). -/
inductive LlmReply where
  | fail : String → LlmReply
  | noChoices : LlmReply
  | reply : (content : String) → (toolCalls : List FnCall) →
      (reasoning : String) → (finishReason : String) → LlmReply
deriving DecidableEq, Repr

/-- One entry of the in-turn `messages` transcript. -/
structure LoopMsg where
  role : String
  content : String
  tool_call_id : Option String := none
deriving DecidableEq, Repr

/-- Tool-output trimming: keep a ~60% head and ~30% tail around a `[TRIMMED]`
marker (the Python `int(m*0.6)` / `int(m*0.3)` are modelled with exact
natural division). -/
def trimToolOutput (cfg : Config) (out : String) : String :=
  if out.data.length > cfg.max_tool_output then
    let headLen := 6 * cfg.max_tool_output / 10
    let tailLen := 3 * cfg.max_tool_output / 10
    let tail :=
      if tailLen = 0 then out.data
      else out.data.drop (out.data.length - tailLen)
    String.mk (out.data.take headLen) ++ "\n\n... [TRIMMED] ...\n\n" ++ String.mk tail
  else out

/-- Result of processing the `tool_calls` of one assistant message. -/
structure CallsResult where
  messages : List LoopMsg
  blocked : Nat
  executed : List String
  locked : Bool
deriving Repr

/-- The `for tc in tool_calls` body of `run_agent`: dispatch each call in
order, update the security counter, return early with the lock when the cap
is reached, otherwise append the tool-role message and continue. -/
def processCalls (cfg : Config) (p : Perms) (env : DispatchEnv) (ctx : ToolContext) :
    List FnCall → List LoopMsg → Nat → List String → CallsResult
  | [], msgs, bc, ex => ⟨msgs, bc, ex, false⟩
  | tc :: rest, msgs, bc, ex =>
    let r := (execute_tool cfg p env tc.name tc.args ctx).1
    let bc' := securityUpdate bc r.error
    if is_security_violation r.error = true ∧ cfg.max_blocked_commands ≤ bc' then
      ⟨msgs, bc', ex ++ [tc.name], true⟩
    else
      let output :=
        if r.success then (if r.output = "" then "(empty)" else r.output)
        else "Error: " ++ (if r.error = "" then "Unknown error" else r.error)
      processCalls cfg p env ctx rest
        (msgs ++ [{ role := "tool", content := trimToolOutput cfg output,
                    tool_call_id := some tc.id }])
        bc' (ex ++ [tc.name])

/-- How `run_agent` exits its iteration loop: an early `return` with an error
string, the early `return` of the lock message, or falling through to the
fallback/epilogue with the accumulated `final_response`. -/
inductive TurnExit where
  | errorOut : String → TurnExit
  | locked : String → TurnExit
  | finished : String → TurnExit
deriving DecidableEq, Repr

/-- The mutable state threaded through the iteration loop, plus traces of the
tools array passed to each LLM call and of every dispatched tool name. -/
structure TurnState where
  messages : List LoopMsg
  tools : List ToolDef
  blocked : Nat
  llmCalls : List (List ToolDef)
  executed : List String
deriving Repr

/-- The synthetic nudge appended when the model produced neither content nor
tool calls but did produce reasoning. -/
def continueNudge : LoopMsg :=
  { role := "user", content := "[system: continue - выдай tool_call или финальный ответ в content]" }

/-- The `while iteration < CONFIG.max_iterations` loop of `run_agent`.
`fuel` is the number of remaining iterations and `idx` numbers the LLM calls
answered by the oracle `llm`. -/
def run_loop (cfg : Config) (p : Perms) (env : DispatchEnv) (llm : Nat → LlmReply)
    (ctx : ToolContext) : Nat → TurnState → Nat → TurnExit × TurnState
  | 0, st, _ => (.finished "", st)
  | fuel + 1, st, idx =>
    let st := { st with llmCalls := st.llmCalls ++ [st.tools] }
    match llm idx with
    | .fail e => (.errorOut ("Error: " ++ e), st)
    | .noChoices => (.errorOut "No response from model", st)
    | .reply content toolCalls reasoning _finishReason =>
      let st := { st with messages := st.messages ++ [{ role := "assistant", content := content }] }
      if content = "" ∧ toolCalls = [] then
        if reasoning ≠ "" then
          run_loop cfg p env llm ctx fuel
            { st with messages := st.messages ++ [continueNudge] } (idx + 1)
        else
          (.finished "", st)
      else if toolCalls ≠ [] then
        let res := processCalls cfg p env ctx toolCalls st.messages st.blocked st.executed
        let st := { st with messages := res.messages, blocked := res.blocked,
                            executed := res.executed }
        if res.locked then (.locked lockMessage, st)
        else run_loop cfg p env llm ctx fuel st (idx + 1)
      else
        (.finished content, st)

/-- One agent turn from the point the initial `messages` list has been
composed: there is no gate on the session's `blocked_count` before the loop
starts. -/
def run_turn (cfg : Config) (p : Perms) (env : DispatchEnv) (llm : Nat → LlmReply)
    (ctx : ToolContext) (session_blocked : Nat) (initMsgs : List LoopMsg)
    (tools0 : List ToolDef) : TurnExit × TurnState :=
  run_loop cfg p env llm ctx cfg.max_iterations
    { messages := initMsgs, tools := tools0, blocked := session_blocked,
      llmCalls := [], executed := [] } 0

/-! ## History trimming — `core/agent.py`, `trim_history` and the epilogue

`trim_history` measures entries with `len(json.dumps(m))`.  The JSON encoded
length of a history entry `{"role": r, "content": c}` is modelled exactly for
`json.dumps` with its default `ensure_ascii=True` and `", "`/`": "`
separators. -/

/-- Encoded length of one character inside a JSON string produced by
`json.dumps(..., ensure_ascii=True)`. -/
def escLen (c : Char) : Nat :=
  if c = '"' ∨ c = '\\' then 2
  else if c = '\n' ∨ c = '\t' ∨ c = '\r' ∨ (c = Char.ofNat 8) ∨ (c = Char.ofNat 12) then 2
  else if c.toNat < 32 then 6
  else if c.toNat < 127 then 1
  else if c.toNat ≤ 0xFFFF then 6
  else 12

/-- Length of the JSON encoding of a string, quotes included. -/
def jsonStrLen (s : String) : Nat :=
  2 + (s.data.map escLen).sum

/-- `len(json.dumps({"role": r, "content": c}))`. -/
def msgSize (m : HistMsg) : Nat :=
  1 + jsonStrLen "role" + 2 + jsonStrLen m.role + 2
    + jsonStrLen "content" + 2 + jsonStrLen m.content + 1

/-- Total serialized size of a history (`sum(len(json.dumps(m)) for m in history)`). -/
def listSize (sz : α → Nat) (l : List α) : Nat :=
  (l.map sz).sum

/-- `history[-max_msgs:]` guarded by `len(history) > max_msgs`; Python's
`history[-0:]` keeps the whole list. -/
def sliceLast (l : List α) (n : Nat) : List α :=
  if l.length > n then
    (if n = 0 then l else l.drop (l.length - n))
  else l

/-- The `while total > max_chars and len(history) > 2: history.pop(0)` loop. -/
def trimChars (sz : α → Nat) (maxChars : Nat) : List α → List α
  | [] => []
  | x :: xs =>
    if 2 < (x :: xs).length ∧ maxChars < listSize sz (x :: xs) then
      trimChars sz maxChars xs
    else x :: xs

/-- `trim_history(history, max_msgs, max_chars)`. -/
def trim_history (sz : α → Nat) (history : List α) (max_msgs max_chars : Nat) :
    List α :=
  trimChars sz max_chars (sliceLast history max_msgs)

/-- The epilogue of `run_agent`: append the user message, append the
assistant reply when non-empty, then
`trim_history(session.history, CONFIG.max_history * 2, 30000)`. -/
def epilogue_history (history : List HistMsg) (message final_response : String)
    (max_history : Nat) : List HistMsg :=
  let h := history ++ [{ role := "user", content := message }]
      ++ (if final_response ≠ "" then [{ role := "assistant", content := final_response }] else [])
  trim_history msgSize h (max_history * 2) 30000

/-! ## Scheduler — `scheduler/main.py` -/

/-- `Task` from `scheduler/main.py` (timestamps in unix seconds, modelled as
integers). -/
structure Task where
  id : String
  user_id : Int
  chat_id : Int
  task_type : String
  content : String
  execute_at : Int
  created_at : Int
  recurring : Bool := false
  interval_minutes : Int := 0
  source : String := "bot"
  last_run : Option Int := none
  run_count : Nat := 0
  enabled : Bool := true
deriving DecidableEq, Repr

/-- `BOT_URL` default. -/
def BOT_URL : String := "http://bot:4001"

/-- `CORE_URL` default. -/
def CORE_URL : String := "http://core:4000"

/-- Body of a `POST {BOT_URL}/send` or `/send_userbot` request. -/
structure SendPayload where
  chat_id : Int
  text : String
deriving DecidableEq, Repr

/-- Body of a `POST {CORE_URL}/api/chat` request. -/
structure AgentPayload where
  user_id : Int
  chat_id : Int
  message : String
  username : String
  source : String
  chat_type : String
deriving DecidableEq, Repr

/-- The outbound HTTP request `execute_task` performs for a task. -/
inductive SchedRequest where
  | send : (url : String) → SendPayload → SchedRequest
  | agentChat : (url : String) → AgentPayload → SchedRequest
deriving DecidableEq, Repr

/-- The HTTP request attempted by `execute_task`, by task type.  A `message`
task posts `{chat_id, text: "⏰ Напоминание: " + content}` to the bot's send
endpoint (`/send` for source `bot`, `/send_userbot` otherwise); an `agent`
task posts the chat payload to the core; any other type performs no request. -/
def task_request (task : Task) : Option SchedRequest :=
  if task.task_type = "message" then
    some (.send (if task.source = "bot" then BOT_URL ++ "/send" else BOT_URL ++ "/send_userbot")
      { chat_id := task.chat_id, text := "⏰ Напоминание: " ++ task.content })
  else if task.task_type = "agent" then
    some (.agentChat (CORE_URL ++ "/api/chat")
      { user_id := task.user_id, chat_id := task.chat_id, message := task.content,
        username := "scheduler", source := task.source, chat_type := "private" })
  else none

/-- How one execution attempt ends: the `try` block ran to completion
(success, or an HTTP error status handled in-band), or an exception was
raised inside it (network failure, timeout, ...). -/
inductive ExecAttempt where
  | completed : ExecAttempt
  | raisedEx : String → ExecAttempt
deriving DecidableEq, Repr

/-- Dictionary update of the task with the given id (the Python code mutates
the stored `Task` object in place; ids are unique keys of `store.tasks`). -/
def store_update (store : List Task) (id : String) (t' : Task) : List Task :=
  store.map (fun t => if t.id = id then t' else t)

/-- `store.delete(task.id)`. -/
def store_delete (store : List Task) (id : String) : List Task :=
  store.filter (fun t => t.id ≠ id)

/-- The state change of `execute_task`: when the `try` body completes, set
`last_run`/`run_count` and reschedule or delete; when it raises, the
`except` clause only logs and the store is left untouched. -/
def execute_task_store (now : Int) (outcome : ExecAttempt) (task : Task)
    (store : List Task) : List Task :=
  match outcome with
  | .raisedEx _ => store
  | .completed =>
    let t' : Task := { task with last_run := some now, run_count := task.run_count + 1 }
    if task.recurring = true ∧ 0 < task.interval_minutes then
      store_update store task.id { t' with execute_at := now + task.interval_minutes * 60 }
    else
      store_delete store task.id

/-- `store.get_due_tasks()`. -/
def get_due_tasks (now : Int) (store : List Task) : List Task :=
  store.filter (fun t => t.enabled = true ∧ t.execute_at ≤ now)

/-- One iteration of `scheduler_loop`: fire `execute_task` for every due
task.  The per-task outcomes are given by `f`; a raising task only logs, so
the fold continues over the remaining due tasks regardless. -/
def scheduler_tick (now : Int) (f : String → ExecAttempt) (store : List Task) :
    List Task :=
  (get_due_tasks now store).foldl
    (fun s t => execute_task_store now (f t.id) t s) store

/-! ## Claim-side (specification) definitions, for refinement claims -/

/-- Claim-side effective session type, following the words of claim C7:
userbot when the source is userbot, otherwise `private→main`,
`group/supergroup→group`, `sandbox→sandbox`, and `main` for anything else. -/
def spec_effective_type (session_type source : String) : String :=
  if source = "userbot" then "userbot"
  else if session_type = "private" then "main"
  else if session_type = "group" ∨ session_type = "supergroup" then "group"
  else if session_type = "sandbox" then "sandbox"
  else "main"

/-- Claim-side base permission decision, following the words of claim C7:
allowlist `"*"` allows all, an explicit allowlist allows exactly the listed
names, denylist `"*"` denies all, an explicit denylist denies exactly the
listed names. -/
def spec_base_allowed (c : PermConfig) (tool : String) : Bool :=
  if c.mode = "allowlist" then
    match c.tools with
    | .star => true
    | .names ts => ts.contains tool
  else
    match c.tools with
    | .star => false
    | .names ts => !ts.contains tool

/-- Claim-side permission decision of claim C7: the base decision of the
effective type's config, except that in the sandbox effective type every
tool in `SANDBOX_DENIED` is denied regardless. -/
def spec_allowed (p : Perms) (tool session_type source : String) : Bool :=
  let et := spec_effective_type session_type source
  if et = "sandbox" ∧ SANDBOX_DENIED.contains tool then false
  else spec_base_allowed (p.get et) tool

/-- Claim-side MCP name parser, following the words of claim C6: try the
*registered* MCP server names in descending length order (first match among
the longest) to resolve the boundary in `mcp_<server>_<tool>`. -/
def spec_resolve_mcp (registered : List String) (rest : String) :
    Option (String × String) :=
  let candidates := registered.filter (fun s => strStarts rest (s ++ "_"))
  match candidates.foldl
      (fun best s =>
        match best with
        | none => some s
        | some b => if b.data.length < s.data.length then some s else some b)
      none with
  | some server => some (server, strDrop rest (server.data.length + 1))
  | none => none

/-! ## Concrete fixtures used by witnesses and counterexamples -/

/-- A concrete configuration (violation cap 3, tool timeout 120 s). -/
def cfgFix : Config :=
  { max_iterations := 5, max_blocked_commands := 3, tool_timeout := 120,
    max_history := 20, max_tool_output := 3000, max_context_messages := 40 }

/-- A private bot chat context. -/
def ctxMain : ToolContext := { cwd := "/workspace/7" }

/-- A group bot chat context. -/
def ctxGroup : ToolContext := { cwd := "/workspace/7", chat_type := "group" }

/-- Environment in which `list_directory` succeeds and everything else raises. -/
def envList : DispatchEnv :=
  { mcp := fun _ _ _ => .raised "unreachable",
    exec := fun name _ _ =>
      if name = "list_directory" then .ok { success := true, output := "SESSION.json" }
      else .raised "unreachable" }

/-- LLM script: first a `list_directory` tool call, then a final reply. -/
def llmListThenDone : Nat → LlmReply := fun i =>
  if i = 0 then .reply "" [{ id := "c1", name := "list_directory", args := [] }] "" "tool_calls"
  else .reply "done" [] "" "stop"

/-- Environment in which `run_command` reports a blocked security pattern. -/
def envViol : DispatchEnv :=
  { mcp := fun _ _ _ => .raised "unreachable",
    exec := fun name _ _ =>
      if name = "run_command" then
        .ok { success := false, error := "BLOCKED: attempt to read secret env" }
      else .raised "unreachable" }

/-- LLM script that always issues a `run_command` tool call. -/
def llmViol : Nat → LlmReply := fun _ =>
  .reply "" [{ id := "c1", name := "run_command", args := [] }] "" "tool_calls"

/-- A tool definition that is dynamically loadable but not initially present. -/
def fetchPageDef : ToolDef :=
  { «type» := "function", function := { name := "fetch_page", description := "Fetch a web page" } }

/-- Initial tool list containing only `load_tools`. -/
def toolsLoadOnly : List ToolDef :=
  [{ «type» := "function", function := { name := "load_tools", description := "Load additional tools" } }]

/-- Environment in which `load_tools` succeeds and returns `fetchPageDef`
via `metadata.loaded_tools`, as `tool_load_tools` does. -/
def envLoad : DispatchEnv :=
  { mcp := fun _ _ _ => .raised "unreachable",
    exec := fun name _ _ =>
      if name = "load_tools" then
        .ok { success := true, output := "✅ Loaded 1 tools: fetch_page",
              metadata := some [fetchPageDef] }
      else .raised "unreachable" }

/-- LLM script: first a `load_tools` tool call, then a final reply. -/
def llmLoad : Nat → LlmReply := fun i =>
  if i = 0 then .reply "" [{ id := "c1", name := "load_tools", args := [] }] "" "tool_calls"
  else .reply "done" [] "" "stop"

/-- A concrete one-shot reminder task. -/
def taskPing : Task :=
  { id := "task_1700000000_ab01cd", user_id := 1, chat_id := 42,
    task_type := "message", content := "ping", execute_at := 50, created_at := 0 }

/-- A concrete recurring reminder task (every minute). -/
def taskPingRecurring : Task :=
  { taskPing with id := "task_1700000000_ef02gh", recurring := true, interval_minutes := 1 }

/-- A 30000-character message body. -/
def bigA : String := String.mk (List.replicate 30000 'a')

/-- Environment in which every external call exceeds its deadline. -/
def envTimedOut : DispatchEnv :=
  { mcp := fun _ _ _ => .timedOut, exec := fun _ _ _ => .timedOut }

/-- A session with a capped security counter. -/
def lockedSession : AgentSession :=
  { user_id := 1, chat_id := 2, cwd := "/workspace/1",
    history := [{ role := "user", content := "hi" }], blocked_count := 3 }

/-! ## Helper lemmas -/

theorem string_data_eq {s t : String} (h : s.data = t.data) : s = t := by
  cases s; cases t; exact congrArg String.mk h

theorem strStarts_trans_append {a pre : String} (b : String)
    (h : strStarts a pre = true) : strStarts (a ++ b) pre = true := by
  unfold strStarts at h ⊢
  rw [String.data_append]
  rw [List.isPrefixOf_iff_prefix] at h ⊢
  exact h.trans (List.prefix_append a.data b.data)

theorem strStarts_self_append (a b : String) : strStarts (a ++ b) a = true := by
  unfold strStarts
  rw [String.data_append, List.isPrefixOf_iff_prefix]
  exact List.prefix_append a.data b.data

theorem strStarts_drop_eq {rest pre : String} (h : strStarts rest pre = true) :
    pre ++ strDrop rest pre.data.length = rest := by
  unfold strStarts at h
  rw [List.isPrefixOf_iff_prefix] at h
  obtain ⟨t, ht⟩ := h
  apply string_data_eq
  rw [String.data_append]
  unfold strDrop
  show pre.data ++ (rest.data.drop pre.data.length) = rest.data
  rw [← ht, List.drop_left]

theorem filter_idem {α : Type} (q : α → Bool) (l : List α) :
    (l.filter q).filter q = l.filter q := by
  rw [List.filter_filter]
  simp

theorem le_securityUpdate (bc : Nat) (e : String) : bc ≤ securityUpdate bc e := by
  unfold securityUpdate
  split <;> omega

theorem no_blocked_no_violation {e : String}
    (h : strContains e "BLOCKED" = false) : is_security_violation e = false := by
  unfold is_security_violation
  rw [h, Bool.false_and]

theorem processCalls_blocked_le (cfg : Config) (p : Perms) (env : DispatchEnv)
    (ctx : ToolContext) (calls : List FnCall) :
    ∀ msgs bc ex, bc ≤ (processCalls cfg p env ctx calls msgs bc ex).blocked := by
  induction calls with
  | nil => intro msgs bc ex; exact le_refl bc
  | cons tc rest ih =>
    intro msgs bc ex
    rw [processCalls]
    split
    · exact le_securityUpdate bc _
    · exact (le_securityUpdate bc _).trans (ih _ _ _)

theorem run_loop_blocked_le (cfg : Config) (p : Perms) (env : DispatchEnv)
    (llm : Nat → LlmReply) (ctx : ToolContext) (fuel : Nat) :
    ∀ st idx, st.blocked ≤ ((run_loop cfg p env llm ctx fuel st idx).2).blocked := by
  induction fuel with
  | zero => intro st idx; exact le_refl _
  | succ fuel ih =>
    intro st idx
    rw [run_loop]
    cases llm idx with
    | fail e => exact le_refl _
    | noChoices => exact le_refl _
    | reply content toolCalls reasoning finishReason =>
      simp only
      split
      · split
        · refine le_trans ?_ (ih _ _)
          exact le_refl _
        · exact le_refl _
      · split
        · split
          · exact processCalls_blocked_le cfg p env ctx toolCalls _ _ _
          · refine le_trans ?_ (ih _ _)
            exact processCalls_blocked_le cfg p env ctx toolCalls _ _ _
        · exact le_refl _

theorem run_loop_tools_const (cfg : Config) (p : Perms) (env : DispatchEnv)
    (llm : Nat → LlmReply) (ctx : ToolContext) (fuel : Nat) :
    ∀ st idx, ((run_loop cfg p env llm ctx fuel st idx).2).tools = st.tools := by
  induction fuel with
  | zero => intro st idx; rfl
  | succ fuel ih =>
    intro st idx
    rw [run_loop]
    cases llm idx with
    | fail e => rfl
    | noChoices => rfl
    | reply content toolCalls reasoning finishReason =>
      simp only
      split
      · split
        · rw [ih]
        · rfl
      · split
        · split
          · rfl
          · rw [ih]
        · rfl

theorem splitFirstUnderscore_go_eq (l : List Char) :
    ∀ acc a b, splitFirstUnderscore.go l acc = some (a, b) →
      a.data ++ '_' :: b.data = acc.reverse ++ l := by
  induction l with
  | nil => intro acc a b h; simp [splitFirstUnderscore.go] at h
  | cons c rest ih =>
    intro acc a b h
    rw [splitFirstUnderscore.go] at h
    by_cases hc : c = '_'
    · rw [if_pos hc] at h
      injection h with h
      injection h with h1 h2
      subst h1; subst h2; subst hc
      simp
    · rw [if_neg hc] at h
      have := ih (c :: acc) a b h
      simpa using this

theorem splitFirstUnderscore_eq {s a b : String}
    (h : splitFirstUnderscore s = some (a, b)) : a ++ "_" ++ b = s := by
  unfold splitFirstUnderscore at h
  have := splitFirstUnderscore_go_eq s.data [] a b h
  apply string_data_eq
  rw [String.data_append, String.data_append]
  simpa using this

theorem resolve_mcp_reassemble {rest server tool : String}
    (h : resolve_mcp rest = some (server, tool)) :
    server ++ "_" ++ tool = rest ∧ server ≠ "" ∧ tool ≠ "" := by
  unfold resolve_mcp at h
  simp only at h
  cases hf : MCP_SERVER_CANDIDATES.find? (fun s => strStarts rest (s ++ "_")) with
  | some s =>
    rw [hf] at h
    simp only at h
    split at h
    · rename_i hne
      injection h with h
      injection h with h1 h2
      rw [← h1, ← h2]
      refine ⟨?_, hne.1, hne.2⟩
      have hp : strStarts rest (s ++ "_") = true := by
        have := List.find?_some hf
        simpa using this
      have hd := strStarts_drop_eq hp
      have hlen : (s ++ "_").data.length = s.data.length + 1 := by
        rw [String.data_append]; simp
      rw [← hlen]
      exact hd
    · exact Option.noConfusion h
  | none =>
    rw [hf] at h
    simp only at h
    cases hs : splitFirstUnderscore rest with
    | none => rw [hs] at h; exact Option.noConfusion h
    | some pr =>
      obtain ⟨a, b⟩ := pr
      rw [hs] at h
      simp only at h
      split at h
      · rename_i hne
        injection h with h
        injection h with h1 h2
        rw [← h1, ← h2]
        exact ⟨splitFirstUnderscore_eq hs, hne.1, hne.2⟩
      · exact Option.noConfusion h

theorem sliceLast_length_le {α : Type} (l : List α) (n : Nat) (h : 0 < n) :
    (sliceLast l n).length ≤ n := by
  unfold sliceLast
  split
  · rename_i hlen
    rw [if_neg (by omega)]
    rw [List.length_drop]
    omega
  · rename_i hlen
    omega

theorem trimChars_length_le {α : Type} (sz : α → Nat) (c : Nat) (l : List α) :
    (trimChars sz c l).length ≤ l.length := by
  induction l with
  | nil => simp [trimChars]
  | cons x xs ih =>
    rw [trimChars]
    split
    · exact ih.trans (by simp)
    · exact le_refl _

theorem trimChars_size_or_short {α : Type} (sz : α → Nat) (c : Nat) (l : List α) :
    listSize sz (trimChars sz c l) ≤ c ∨ (trimChars sz c l).length ≤ 2 := by
  induction l with
  | nil => left; simp [trimChars, listSize]
  | cons x xs ih =>
    rw [trimChars]
    split
    · exact ih
    · rename_i hcond
      push_neg at hcond
      by_cases hlen : 2 < (x :: xs).length
      · left; exact hcond hlen
      · right; omega

theorem effective_type_eq (st src : String) :
    get_effective_type st src = spec_effective_type st src := by
  unfold get_effective_type spec_effective_type
  by_cases hu : src = "userbot" <;>
  by_cases h1 : st = "private" <;>
  by_cases h2 : st = "main" <;>
  by_cases h3 : st = "group" <;>
  by_cases h4 : st = "supergroup" <;>
  by_cases h5 : st = "sandbox" <;>
  simp_all

theorem strStarts_ne_empty {s pre : String} (h : strStarts s pre = true)
    (hp : pre ≠ "") : s ≠ "" := by
  intro hs
  subst hs
  unfold strStarts at h
  cases pre with
  | mk data =>
    cases data with
    | nil => exact hp rfl
    | cons a as => simp [List.isPrefixOf] at h

theorem escLen_pos (c : Char) : 1 ≤ escLen c := by
  unfold escLen
  split_ifs <;> omega

theorem sum_ge_length (l : List Nat) (h : ∀ x ∈ l, 1 ≤ x) : l.length ≤ l.sum := by
  induction l with
  | nil => simp
  | cons a t ih =>
    rw [List.length_cons, List.sum_cons]
    have ha := h a (by simp)
    have ht := ih (fun x hx => h x (by simp [hx]))
    omega

theorem jsonStrLen_lower (s : String) : s.data.length + 2 ≤ jsonStrLen s := by
  unfold jsonStrLen
  have h := sum_ge_length (s.data.map escLen) (by
    intro x hx
    rw [List.mem_map] at hx
    obtain ⟨c, _, rfl⟩ := hx
    exact escLen_pos c)
  rw [List.length_map] at h
  omega

theorem msgSize_lower (m : HistMsg) : m.content.data.length + 2 ≤ msgSize m := by
  unfold msgSize
  have h1 := jsonStrLen_lower m.content
  omega

theorem listSize_single {α : Type} (sz : α → Nat) (x : α) : listSize sz [x] = sz x := by
  simp [listSize]

/-! ## Claim theorems -/

/-- C1 (corrected): a dispatched tool call whose error is a security
violation and that brings the counter to the configured cap ends the current
turn with the terminal lock message; the security counter never decreases
within the processing of tool calls nor across a whole turn; clearing the
session resets the counter to 0 and empties the history.  (The original
claim's further assertion — that every later turn on a capped session
returns the lock without executing any tool — is refuted by
`c1_locked_session_still_runs_tools`: `run_agent` has no gate on
`blocked_count` before its loop.) -/
theorem c1_security_lock_amended (cfg : Config) (p : Perms) (env : DispatchEnv)
    (ctx : ToolContext) :
    (∀ (calls : List FnCall) (msgs : List LoopMsg) (bc : Nat) (ex : List String),
       bc ≤ (processCalls cfg p env ctx calls msgs bc ex).blocked)
  ∧ (∀ (llm : Nat → LlmReply) (fuel : Nat) (st : TurnState) (idx : Nat),
       st.blocked ≤ ((run_loop cfg p env llm ctx fuel st idx).2).blocked)
  ∧ (∀ (tc : FnCall) (rest : List FnCall) (msgs : List LoopMsg) (bc : Nat) (ex : List String),
       is_security_violation (execute_tool cfg p env tc.name tc.args ctx).1.error = true →
       cfg.max_blocked_commands ≤ bc + 1 →
       processCalls cfg p env ctx (tc :: rest) msgs bc ex
         = ⟨msgs, bc + 1, ex ++ [tc.name], true⟩)
  ∧ (∀ (llm : Nat → LlmReply) (fuel : Nat) (st : TurnState) (idx : Nat)
       (content : String) (toolCalls : List FnCall) (reasoning finishReason : String),
       llm idx = .reply content toolCalls reasoning finishReason →
       toolCalls ≠ [] →
       (processCalls cfg p env ctx toolCalls
          (st.messages ++ [{ role := "assistant", content := content }])
          st.blocked st.executed).locked = true →
       (run_loop cfg p env llm ctx (fuel + 1) st idx).1 = .locked lockMessage)
  ∧ (∀ s : AgentSession,
       (clear_session s).blocked_count = 0 ∧ (clear_session s).history = []) := by
  refine ⟨processCalls_blocked_le cfg p env ctx, ?_, ?_, ?_, ?_⟩
  · intro llm fuel st idx
    exact run_loop_blocked_le cfg p env llm ctx fuel st idx
  · intro tc rest msgs bc ex hviol hcap
    rw [processCalls]
    have husec : securityUpdate bc (execute_tool cfg p env tc.name tc.args ctx).1.error
        = bc + 1 := by
      unfold securityUpdate
      rw [hviol]
      simp
    simp only [hviol, husec]
    rw [if_pos ⟨by simp, hcap⟩]
  · intro llm fuel st idx content toolCalls reasoning finishReason hllm htc hlock
    rw [run_loop]
    rw [hllm]
    dsimp only
    rw [if_neg (fun hcontra => htc hcontra.2)]
    rw [if_pos htc]
    rw [hlock]
    simp
  · intro s
    exact ⟨rfl, rfl⟩

/-- Witness for C1: with cap 3 and counter 2, a blocked `run_command`
dispatch locks, the turn returns the lock message, and clearing resets. -/
theorem c1_security_lock_amended_witness :
    processCalls cfgFix DEFAULT_PERMISSIONS envViol ctxMain
        [{ id := "c1", name := "run_command", args := [] }] [] 2 []
      = ⟨[], 3, ["run_command"], true⟩
  ∧ (run_loop cfgFix DEFAULT_PERMISSIONS envViol llmViol ctxMain 5
        { messages := [], tools := [], blocked := 2, llmCalls := [], executed := [] } 0).1
      = .locked lockMessage
  ∧ (clear_session lockedSession).blocked_count = 0 :=
  ⟨(c1_security_lock_amended cfgFix DEFAULT_PERMISSIONS envViol ctxMain).2.2.1
      { id := "c1", name := "run_command", args := [] } [] [] 2 [] (by decide) (by decide),
   (c1_security_lock_amended cfgFix DEFAULT_PERMISSIONS envViol ctxMain).2.2.2.1
      llmViol 4 { messages := [], tools := [], blocked := 2, llmCalls := [], executed := [] }
      0 "" [{ id := "c1", name := "run_command", args := [] }] "" "tool_calls"
      rfl (by decide) (by decide),
   ((c1_security_lock_amended cfgFix DEFAULT_PERMISSIONS envViol ctxMain).2.2.2.2
      lockedSession).1⟩

/-- Counterexample to C1 as stated: a session whose counter already equals
the cap (3) runs a later turn in which `list_directory` is executed and the
turn finishes with ordinary content, not the lock message — `run_agent`
never gates on `blocked_count` before executing tools. -/
theorem c1_locked_session_still_runs_tools :
    (run_turn cfgFix DEFAULT_PERMISSIONS envList llmListThenDone ctxMain 3 [] []).1
      = .finished "done"
  ∧ (run_turn cfgFix DEFAULT_PERMISSIONS envList llmListThenDone ctxMain 3 [] []).2.executed
      = ["list_directory"]
  ∧ cfgFix.max_blocked_commands = 3 ∧ TurnExit.finished "done" ≠ .locked lockMessage := by
  decide

/-- C2 (confirmed): the security counter is incremented by a dispatch if and
only if the tool result's error contains `"BLOCKED"` and its lower-cased form
contains one of the sensitive tokens; a permission-denied result (error
prefixed `🔒`, containing no `"BLOCKED"`) leaves the counter unchanged and
the tool-call loop continues with the corresponding tool-role message. -/
theorem c2_security_counter_classifier (bc : Nat) (r : ToolResult) :
    (securityUpdate bc r.error = bc + 1 ↔
      (strContains r.error "BLOCKED" = true ∧
       ∃ t ∈ SECURITY_TOKENS, strContains (lowerStr r.error) t = true))
  ∧ (∀ (cfg : Config) (p : Perms) (env : DispatchEnv) (ctx : ToolContext)
       (tc : FnCall) (rest : List FnCall) (msgs : List LoopMsg) (ex : List String),
       (check_permission p tc.name ctx.chat_type ctx.source).allowed = false →
       strContains (execute_tool cfg p env tc.name tc.args ctx).1.error "BLOCKED" = false →
       strStarts (execute_tool cfg p env tc.name tc.args ctx).1.error "🔒" = true ∧
       processCalls cfg p env ctx (tc :: rest) msgs bc ex
         = processCalls cfg p env ctx rest
             (msgs ++ [{ role := "tool",
                         content := trimToolOutput cfg
                           ("Error: " ++ (execute_tool cfg p env tc.name tc.args ctx).1.error),
                         tool_call_id := some tc.id }])
             bc (ex ++ [tc.name])) := by
  constructor
  · unfold securityUpdate is_security_violation
    split
    · rename_i hv
      simp only [Bool.and_eq_true, List.any_eq_true] at hv
      simp [hv]
    · rename_i hv
      simp only [Bool.and_eq_true, List.any_eq_true] at hv
      constructor
      · intro h; omega
      · intro h; exact absurd h hv
  · intro cfg p env ctx tc rest msgs ex hden hnob
    have hexe : execute_tool cfg p env tc.name tc.args ctx
        = ({ success := false, output := "",
             error := "🔒 Tool '" ++ tc.name ++ "' not available in "
               ++ (check_permission p tc.name ctx.chat_type ctx.source).session_type
               ++ " sessions. "
               ++ (check_permission p tc.name ctx.chat_type ctx.source).reason,
             metadata := none }, []) := by
      unfold execute_tool
      simp only [hden, if_pos]
    have hstart : strStarts (execute_tool cfg p env tc.name tc.args ctx).1.error "🔒"
        = true := by
      rw [hexe]
      show strStarts ("🔒 Tool '" ++ tc.name ++ "' not available in " ++ _
        ++ " sessions. " ++ _) "🔒" = true
      apply strStarts_trans_append
      apply strStarts_trans_append
      apply strStarts_trans_append
      apply strStarts_trans_append
      apply strStarts_trans_append
      decide
    refine ⟨hstart, ?_⟩
    have hv : is_security_violation (execute_tool cfg p env tc.name tc.args ctx).1.error
        = false := no_blocked_no_violation hnob
    have hne : (execute_tool cfg p env tc.name tc.args ctx).1.error ≠ "" :=
      strStarts_ne_empty hstart (by decide)
    rw [processCalls]
    rw [hv]
    simp only [Bool.false_eq_true, false_and, if_false]
    have hsucc : (execute_tool cfg p env tc.name tc.args ctx).1.success = false := by
      rw [hexe]
    have husec : securityUpdate bc (execute_tool cfg p env tc.name tc.args ctx).1.error
        = bc := by
      unfold securityUpdate
      rw [hv]
      simp
    rw [husec, hsucc]
    simp only [Bool.false_eq_true, if_false]
    rw [if_neg hne]

/-- Witness for C2: the group-session `send_dm` denial carries the `🔒`
prefix, does not advance the counter, and the loop continues. -/
theorem c2_security_counter_classifier_witness :
    strStarts (execute_tool cfgFix DEFAULT_PERMISSIONS envList "send_dm" [] ctxGroup).1.error
        "🔒" = true
  ∧ processCalls cfgFix DEFAULT_PERMISSIONS envList ctxGroup
        [{ id := "c9", name := "send_dm", args := [] }] [] 0 []
      = processCalls cfgFix DEFAULT_PERMISSIONS envList ctxGroup []
          ([] ++ [{ role := "tool",
                    content := trimToolOutput cfgFix
                      ("Error: " ++ (execute_tool cfgFix DEFAULT_PERMISSIONS envList
                          "send_dm" [] ctxGroup).1.error),
                    tool_call_id := some "c9" }])
          0 ([] ++ ["send_dm"]) :=
  (c2_security_counter_classifier 0
      { success := false, error := "BLOCKED: attempt to read secret env" }).2
    cfgFix DEFAULT_PERMISSIONS envList ctxGroup
    { id := "c9", name := "send_dm", args := [] } [] [] [] (by decide) (by decide)

/-- C3 (corrected): an execution attempt that completes the HTTP exchange
(success or in-band HTTP error) sets `last_run = now`, advances `run_count`
by one, and reschedules (recurring with positive interval) or deletes the
task; an attempt that raises an exception leaves the store untouched, since
the update code sits inside the `try` block; raising attempts never abort
the tick loop — a tick all of whose attempts raise still completes,
leaving the store unchanged. -/
theorem c3_task_update_amended (now : Int) (t : Task) (store : List Task) :
    (∀ e, execute_task_store now (.raisedEx e) t store = store)
  ∧ (t.recurring = true ∧ 0 < t.interval_minutes →
       execute_task_store now .completed t store
         = store_update store t.id
             { t with
               last_run := some now,
               run_count := t.run_count + 1,
               execute_at := now + t.interval_minutes * 60 })
  ∧ (¬(t.recurring = true ∧ 0 < t.interval_minutes) →
       execute_task_store now .completed t store = store_delete store t.id)
  ∧ (∀ f : String → ExecAttempt, (∀ id, ∃ e, f id = .raisedEx e) →
       scheduler_tick now f store = store) := by
  refine ⟨fun e => rfl, ?_, ?_, ?_⟩
  · intro h
    unfold execute_task_store
    rw [if_pos h]
  · intro h
    unfold execute_task_store
    rw [if_neg h]
  · intro f hf
    unfold scheduler_tick
    have key : ∀ (l : List Task) (s : List Task),
        l.foldl (fun s t => execute_task_store now (f t.id) t s) s = s := by
      intro l
      induction l with
      | nil => intro s; rfl
      | cons a l ih =>
        intro s
        rw [List.foldl_cons]
        obtain ⟨e, he⟩ := hf a.id
        rw [he]
        exact ih _
    exact key _ _

/-- Witness for C3: a raising attempt leaves the store unchanged; a
completed attempt on a recurring task reschedules it and on a one-shot task
deletes it; an all-raising tick is a no-op that still completes. -/
theorem c3_task_update_amended_witness :
    execute_task_store 100 (.raisedEx "boom") taskPing [taskPing] = [taskPing]
  ∧ execute_task_store 50 .completed taskPingRecurring [taskPingRecurring]
      = store_update [taskPingRecurring] taskPingRecurring.id
          { taskPingRecurring with
            last_run := some 50,
            run_count := taskPingRecurring.run_count + 1,
            execute_at := 50 + taskPingRecurring.interval_minutes * 60 }
  ∧ execute_task_store 100 .completed taskPing [taskPing]
      = store_delete [taskPing] taskPing.id
  ∧ scheduler_tick 100 (fun _ => .raisedEx "boom") [taskPing] = [taskPing] :=
  ⟨(c3_task_update_amended 100 taskPing [taskPing]).1 "boom",
   (c3_task_update_amended 50 taskPingRecurring [taskPingRecurring]).2.1 (by decide),
   (c3_task_update_amended 100 taskPing [taskPing]).2.2.1 (by decide),
   (c3_task_update_amended 100 taskPing [taskPing]).2.2.2
     (fun _ => .raisedEx "boom") (fun _ => ⟨"boom", rfl⟩)⟩

/-- Counterexample to C3 as stated: when the send raises (network error),
`execute_task` skips the whole post-update — the task keeps `run_count = 0`
and `last_run = none` and, although one-shot, is not deleted; the claim
requires `run_count = 1`, `last_run = now` and deletion after every attempt. -/
theorem c3_raised_attempt_skips_update :
    execute_task_store 100 (.raisedEx "ClientConnectorError") taskPing [taskPing]
      = [taskPing]
  ∧ taskPing.run_count = 0 ∧ taskPing.last_run = none ∧ taskPing.recurring = false := by
  decide

/-- C4 (code bug): the tool list passed to the LLM never changes during a
turn — `run_agent` never merges `metadata.loaded_tools` into
`tool_definitions` (its `dynamic_tools` list is dead code), contradicting
`tool_load_tools`'s own docstring.  Concretely: the first LLM reply calls
`load_tools`, whose result carries `fetchPageDef` in `metadata.loaded_tools`,
yet the second LLM call still receives the original tool list, which does
not contain `fetchPageDef`. -/
theorem c4_loaded_tools_never_merged :
    ((run_turn cfgFix DEFAULT_PERMISSIONS envLoad llmLoad ctxMain 0 [] toolsLoadOnly).2.llmCalls
        = [toolsLoadOnly, toolsLoadOnly]
     ∧ (execute_tool cfgFix DEFAULT_PERMISSIONS envLoad "load_tools" [] ctxMain).1.metadata
        = some [fetchPageDef]
     ∧ fetchPageDef ∉ toolsLoadOnly)
  ∧ (∀ (cfg : Config) (p : Perms) (env : DispatchEnv) (llm : Nat → LlmReply)
       (ctx : ToolContext) (fuel : Nat) (st : TurnState) (idx : Nat),
       ((run_loop cfg p env llm ctx fuel st idx).2).tools = st.tools) := by
  constructor
  · refine ⟨by decide, by decide, by decide⟩
  · intro cfg p env llm ctx fuel st idx
    exact run_loop_tools_const cfg p env llm ctx fuel st idx

/-- C5 (corrected): a `message` task POSTs `{chat_id, text}` to the bot's
send endpoint (`/send` for source `bot`, `/send_userbot` otherwise), where
`text` is the Russian prefix `"⏰ Напоминание: "` immediately followed by the
task's content — not the English `"⏰ Reminder: "` of the claim. -/
theorem c5_reminder_payload_amended (t : Task) (h : t.task_type = "message") :
    task_request t
      = some (.send (if t.source = "bot" then BOT_URL ++ "/send"
                     else BOT_URL ++ "/send_userbot")
          { chat_id := t.chat_id, text := "⏰ Напоминание: " ++ t.content }) := by
  unfold task_request
  rw [if_pos h]

/-- Witness for C5 at the concrete `ping` reminder task. -/
theorem c5_reminder_payload_amended_witness :
    task_request taskPing
      = some (.send (if taskPing.source = "bot" then BOT_URL ++ "/send"
                     else BOT_URL ++ "/send_userbot")
          { chat_id := taskPing.chat_id, text := "⏰ Напоминание: " ++ taskPing.content }) :=
  c5_reminder_payload_amended taskPing rfl

/-- Counterexample to C5 as stated: the reminder text for content `"ping"`
is `"⏰ Напоминание: ping"`, which differs from the claimed
`"⏰ Reminder: ping"`. -/
theorem c5_reminder_text_is_russian :
    task_request taskPing
      = some (.send "http://bot:4001/send" { chat_id := 42, text := "⏰ Напоминание: ping" })
  ∧ ("⏰ Напоминание: ping" : String) ≠ "⏰ Reminder: ping" := by
  decide

/-- C6 (corrected): an allowed `mcp_`-prefixed name whose remainder the
dispatcher resolves into `(server, tool)` is delegated to the MCP bridge
under a hard deadline equal to the configured tool timeout, and the resolved
parts are non-empty and reassemble the remainder — but the boundary is
resolved with the hardcoded candidate list `google_workspace, docker, test`
followed by a split at the first underscore, not with the registered MCP
server names (see `c6_registered_server_name_ignored`). -/
theorem c6_mcp_dispatch_amended (cfg : Config) (p : Perms) (env : DispatchEnv)
    (name : String) (args : Args) (ctx : ToolContext) (server tool : String)
    (hall : (check_permission p name ctx.chat_type ctx.source).allowed = true)
    (hmcp : strStarts name "mcp_" = true)
    (hres : resolve_mcp (strDrop name 4) = some (server, tool)) :
    (execute_tool cfg p env name args ctx).2
      = [Effect.mcpCall server tool cfg.tool_timeout]
  ∧ server ++ "_" ++ tool = strDrop name 4 ∧ server ≠ "" ∧ tool ≠ "" := by
  have hre := resolve_mcp_reassemble hres
  refine ⟨?_, hre.1, hre.2.1, hre.2.2⟩
  unfold execute_tool
  simp only [hall, hmcp, hres]
  cases henv : env.mcp server tool args <;> simp [henv]

/-- Witness for C6: `mcp_docker_ps` resolves to server `docker`, tool `ps`
and is delegated with the 120 s tool timeout. -/
theorem c6_mcp_dispatch_amended_witness :
    (execute_tool cfgFix DEFAULT_PERMISSIONS envList "mcp_docker_ps" [] ctxMain).2
      = [Effect.mcpCall "docker" "ps" cfgFix.tool_timeout]
  ∧ "docker" ++ "_" ++ "ps" = strDrop "mcp_docker_ps" 4
  ∧ ("docker" : String) ≠ "" ∧ ("ps" : String) ≠ "" :=
  c6_mcp_dispatch_amended cfgFix DEFAULT_PERMISSIONS envList "mcp_docker_ps" [] ctxMain
    "docker" "ps" (by decide) (by decide) (by decide)

/-- Counterexample to C6 as stated: with an MCP server registered under the
name `my_server`, the claimed resolution of `mcp_my_server_ps` (registered
names in descending length order) yields `(my_server, ps)`, but the
dispatcher — which consults only its hardcoded candidate list before
splitting at the first underscore — yields `(my, server_ps)`. -/
theorem c6_registered_server_name_ignored :
    resolve_mcp "my_server_ps" = some ("my", "server_ps")
  ∧ spec_resolve_mcp ["my_server"] "my_server_ps" = some ("my_server", "ps")
  ∧ (("my", "server_ps") : String × String) ≠ ("my_server", "ps") := by
  decide

/-- C7 (confirmed): the permission check derives the effective session type
as the claim's mapping and allows a tool exactly when the effective type's
config permits it (allowlist `"*"` all, explicit allowlist exactly the
listed, denylist `"*"` none, explicit denylist all but the listed), with
every `SANDBOX_DENIED` tool denied in the sandbox type regardless — for any
permissions map whose effective config has a well-formed mode. -/
theorem c7_check_permission_matches_spec (p : Perms) (tool session_type source : String)
    (h : (p.get (get_effective_type session_type source)).mode = "allowlist"
       ∨ (p.get (get_effective_type session_type source)).mode = "denylist") :
    (check_permission p tool session_type source).allowed
      = spec_allowed p tool session_type source
  ∧ (check_permission p tool session_type source).session_type
      = spec_effective_type session_type source := by
  have hety := effective_type_eq session_type source
  constructor
  · unfold check_permission spec_allowed spec_base_allowed
    simp only [hety] at h ⊢
    by_cases hsb : spec_effective_type session_type source = "sandbox"
        ∧ SANDBOX_DENIED.contains tool = true
    · obtain ⟨h1, h2⟩ := hsb
      have h2' : tool ∈ SANDBOX_DENIED := by simpa using h2
      simp [h1, h2']
    · simp only [if_neg hsb]
      rcases h with hm | hm
      · rw [hm]
        cases htools : (p.get (spec_effective_type session_type source)).tools with
        | star => simp
        | names ts => by_cases hmem : tool ∈ ts <;> simp [hmem]
      · rw [hm]
        cases htools : (p.get (spec_effective_type session_type source)).tools with
        | star => simp
        | names ts => by_cases hmem : tool ∈ ts <;> simp [hmem]
  · unfold check_permission
    simp [hety]

/-- Witness for C7 at `send_dm` in a bot group chat (denylist mode). -/
theorem c7_check_permission_matches_spec_witness :
    (check_permission DEFAULT_PERMISSIONS "send_dm" "group" "bot").allowed
      = spec_allowed DEFAULT_PERMISSIONS "send_dm" "group" "bot"
  ∧ (check_permission DEFAULT_PERMISSIONS "send_dm" "group" "bot").session_type
      = spec_effective_type "group" "bot" :=
  c7_check_permission_matches_spec DEFAULT_PERMISSIONS "send_dm" "group" "bot"
    (Or.inr (by decide))

/-- C8 (corrected): after the epilogue trim the history holds at most
`2 · max_history` entries (for any configured `max_history ≥ 1`), and its
serialized size is at most the 30000-character cap **unless** at most two
entries remain — the trim loop never drops below the last exchange, so a
single oversized exchange exceeds the cap
(see `c8_char_cap_violated`). -/
theorem c8_history_caps_amended (history : List HistMsg)
    (message final_response : String) (max_history : Nat) (h : 1 ≤ max_history) :
    (epilogue_history history message final_response max_history).length
      ≤ 2 * max_history
  ∧ (listSize msgSize (epilogue_history history message final_response max_history)
       ≤ 30000
     ∨ (epilogue_history history message final_response max_history).length ≤ 2) := by
  have key : epilogue_history history message final_response max_history
      = trimChars msgSize 30000
          (sliceLast (history ++ [{ role := "user", content := message }]
            ++ (if final_response ≠ ""
                then [{ role := "assistant", content := final_response }] else []))
            (max_history * 2)) := rfl
  constructor
  · rw [key]
    have h1 := trimChars_length_le msgSize 30000
      (sliceLast (history ++ [{ role := "user", content := message }]
        ++ (if final_response ≠ ""
            then [{ role := "assistant", content := final_response }] else []))
        (max_history * 2))
    have h2 := sliceLast_length_le (history ++ [{ role := "user", content := message }]
        ++ (if final_response ≠ ""
            then [{ role := "assistant", content := final_response }] else []))
        (max_history * 2) (by omega)
    omega
  · rw [key]
    exact trimChars_size_or_short msgSize 30000 _

/-- Witness for C8 at a small concrete turn. -/
theorem c8_history_caps_amended_witness :
    (epilogue_history [] "hello" "hi" 20).length ≤ 2 * 20
  ∧ (listSize msgSize (epilogue_history [] "hello" "hi" 20) ≤ 30000
     ∨ (epilogue_history [] "hello" "hi" 20).length ≤ 2) :=
  c8_history_caps_amended [] "hello" "hi" 20 (by decide)

/-- Counterexample to C8 as stated: a turn whose user message serializes to
more than 30000 characters leaves a one-entry history of size strictly above
the cap (the trim loop stops at ≤ 2 entries); moreover with `max_history = 0`
the length bound `≤ 2 · max_history = 0` fails, since Python's
`history[-0:]` keeps the whole list. -/
theorem c8_char_cap_violated :
    epilogue_history [] bigA "" 20 = [{ role := "user", content := bigA }]
  ∧ 30000 < listSize msgSize [{ role := "user", content := bigA }]
  ∧ (epilogue_history [] "hi" "" 0).length = 1 := by
  refine ⟨rfl, ?_, by decide⟩
  rw [listSize_single]
  have h2 := msgSize_lower { role := "user", content := bigA }
  have h1 : ({ role := "user", content := bigA } : HistMsg).content.data.length
      = 30000 := by
    show (List.replicate 30000 'a').length = 30000
    rw [List.length_replicate]
  generalize hM : msgSize { role := "user", content := bigA } = M at h2 ⊢
  generalize hL : ({ role := "user", content := bigA } : HistMsg).content.data.length = L at h1 h2
  omega

/-- C9 (confirmed): the permission filter is idempotent — filtering an
already filtered tool-definition list with the same session type and source
changes nothing. -/
theorem c9_filter_idempotent (p : Perms) (defs : List ToolDef)
    (session_type source : String) :
    filter_tool_definitions p (filter_tool_definitions p defs session_type source)
        session_type source
      = filter_tool_definitions p defs session_type source := by
  unfold filter_tool_definitions
  exact filter_idem _ defs

/-- C10 (confirmed): the dispatcher always returns a `ToolResult`; the
permission check precedes any routing, so a denied name yields an
unsuccessful result without invoking any built-in executor or MCP call; an
allowed non-`mcp_` name with no registered executor yields
`Unknown tool: <name>`; and a timeout or exception inside a built-in
executor maps to an unsuccessful result. -/
theorem c10_dispatcher_error_handling (cfg : Config) (p : Perms) (env : DispatchEnv)
    (name : String) (args : Args) (ctx : ToolContext) :
    ((check_permission p name ctx.chat_type ctx.source).allowed = false →
       (execute_tool cfg p env name args ctx).1.success = false
       ∧ (execute_tool cfg p env name args ctx).2 = [])
  ∧ ((check_permission p name ctx.chat_type ctx.source).allowed = true →
     strStarts name "mcp_" = false →
     TOOL_EXECUTOR_NAMES.contains name = false →
     execute_tool cfg p env name args ctx
       = ({ success := false, output := "", error := "Unknown tool: " ++ name,
            metadata := none }, []))
  ∧ ((check_permission p name ctx.chat_type ctx.source).allowed = true →
     strStarts name "mcp_" = false →
     TOOL_EXECUTOR_NAMES.contains name = true →
       (env.exec name args ctx = .timedOut →
         execute_tool cfg p env name args ctx
           = ({ success := false, output := "", error := "Tool " ++ name ++ " timed out",
                metadata := none }, [Effect.builtinCall name cfg.tool_timeout]))
     ∧ (∀ e, env.exec name args ctx = .raised e →
         execute_tool cfg p env name args ctx
           = ({ success := false, output := "", error := e, metadata := none },
              [Effect.builtinCall name cfg.tool_timeout]))) := by
  refine ⟨?_, ?_, ?_⟩
  · intro hden
    constructor <;> simp [execute_tool, hden]
  · intro hall hmcp hreg
    have hreg' : ¬(name ∈ TOOL_EXECUTOR_NAMES) := by simpa using hreg
    simp [execute_tool, run_builtin, hall, hmcp, hreg']
  · intro hall hmcp hreg
    have hreg' : name ∈ TOOL_EXECUTOR_NAMES := by simpa using hreg
    constructor
    · intro htime
      simp [execute_tool, run_builtin, hall, hmcp, hreg', htime]
    · intro e he
      simp [execute_tool, run_builtin, hall, hmcp, hreg', he]

/-- Witness for C10: a denied `send_dm` in a group performs no external call;
an unknown `bogus_tool` yields the unknown-tool error; a timed-out
`run_command` yields the timeout error. -/
theorem c10_dispatcher_error_handling_witness :
    ((execute_tool cfgFix DEFAULT_PERMISSIONS envList "send_dm" [] ctxGroup).1.success = false
     ∧ (execute_tool cfgFix DEFAULT_PERMISSIONS envList "send_dm" [] ctxGroup).2 = [])
  ∧ execute_tool cfgFix DEFAULT_PERMISSIONS envList "bogus_tool" [] ctxMain
      = ({ success := false, output := "", error := "Unknown tool: " ++ "bogus_tool",
           metadata := none }, [])
  ∧ execute_tool cfgFix DEFAULT_PERMISSIONS envTimedOut "run_command" [] ctxMain
      = ({ success := false, output := "",
           error := "Tool " ++ "run_command" ++ " timed out", metadata := none },
         [Effect.builtinCall "run_command" cfgFix.tool_timeout]) :=
  ⟨(c10_dispatcher_error_handling cfgFix DEFAULT_PERMISSIONS envList "send_dm" [] ctxGroup).1
      (by decide),
   (c10_dispatcher_error_handling cfgFix DEFAULT_PERMISSIONS envList "bogus_tool" [] ctxMain).2.1
      (by decide) (by decide) (by decide),
   ((c10_dispatcher_error_handling cfgFix DEFAULT_PERMISSIONS envTimedOut "run_command" [] ctxMain).2.2
      (by decide) (by decide) (by decide)).1 rfl⟩

end Topsha
